import Mathlib

/-!
Verification development for the FIRS storage/caching subsystem
(`src/storage/cache_manager.py`, `src/storage/temp_storage.py`,
`src/storage/storage_manager.py`).

The Python code is shallowly embedded:
* serializable Python values (what `json` / `pickle` handle here) become the
  inductive type `Val`;
* wall-clock time is a natural number of seconds `now`; a file's
  `st_mtime` is the `now` at which it was written;
* each file-backed store becomes an explicit state (association list of
  files), and each method becomes a pure function on that state;
* `try/except` blocks that swallow I/O errors become `...F` variants taking
  an `ioError : Bool` oracle that says whether some I/O call in the body
  raised; fallible Python functions that (re-)raise return `Except`.
-/

namespace FIRS

/-- Serializable Python values: what `json.dump`/`pickle.dump` handle in the
storage subsystem.  A Python `dict` is an ordered list of key/value pairs
(Python preserves insertion order and keys are unique). -/
inductive Val
  | vnull
  | vbool (b : Bool)
  | vint (n : Int)
  | vstr (s : String)
  | vlist (xs : List Val)
  | vdict (entries : List (String × Val))

/-- Python truthiness (`if cached_data:` / `if temp_data:`): `None`, `False`,
`0`, `""`, `[]` and `\x7b\x7d` are falsy, everything else truthy. -/
def truthy : Val → Bool
  | .vnull => false
  | .vbool b => b
  | .vint n => n != 0
  | .vstr s => s != ""
  | .vlist xs => !xs.isEmpty
  | .vdict l => !l.isEmpty

mutual

/-- Structural (Python `==`) equality test on values. -/
def valBeq : Val → Val → Bool
  | .vnull, .vnull => true
  | .vbool a, .vbool b => a == b
  | .vint a, .vint b => a == b
  | .vstr a, .vstr b => a == b
  | .vlist xs, .vlist ys => valListBeq xs ys
  | .vdict l, .vdict m => valEntriesBeq l m
  | _, _ => false

def valListBeq : List Val → List Val → Bool
  | [], [] => true
  | x :: xs, y :: ys => valBeq x y && valListBeq xs ys
  | _, _ => false

def valEntriesBeq : List (String × Val) → List (String × Val) → Bool
  | [], [] => true
  | p :: ps, q :: qs => (p.1 == q.1) && valBeq p.2 q.2 && valEntriesBeq ps qs
  | _, _ => false

end

/-- Lexicographic comparison of character lists by code point: Python's
string ordering, which `sorted`/`sort_keys` use. -/
def charListLe : List Char → List Char → Bool
  | [], _ => true
  | _ :: _, [] => false
  | a :: as, b :: bs =>
    if a.toNat = b.toNat then charListLe as bs
    else decide (a.toNat < b.toNat)

/-- Python's `<=` on strings (lexicographic by code point). -/
def pyStrLe (a b : String) : Bool := charListLe a.data b.data

/-- Whether the first list extends the second. -/
def charListLead : List Char → List Char → Bool
  | [], _ => true
  | _ :: _, [] => false
  | a :: as, b :: bs => decide (a.toNat = b.toNat) && charListLead as bs

/-- Python's `s.startswith(pat)`, which is what a trailing-`*` glob tests. -/
def strBegins (s pat : String) : Bool := charListLead pat.data s.data

/-- Ordering of dict entries by key, as used by `json.dumps(..., sort_keys=True)`. -/
def keyLe (p q : String × Val) : Prop := pyStrLe p.1 q.1 = true

instance : DecidableRel keyLe := fun p q => inferInstanceAs (Decidable (pyStrLe p.1 q.1 = true))

mutual

/-- Recursive canonicalization performed by `json.dumps(data, sort_keys=True)`:
every dict, at every nesting depth, has its entries sorted by key. -/
def canonVal : Val → Val
  | .vnull => .vnull
  | .vbool b => .vbool b
  | .vint n => .vint n
  | .vstr s => .vstr s
  | .vlist xs => .vlist (canonList xs)
  | .vdict l => .vdict (List.insertionSort keyLe (canonEntries l))

def canonList : List Val → List Val
  | [] => []
  | v :: vs => canonVal v :: canonList vs

def canonEntries : List (String × Val) → List (String × Val)
  | [] => []
  | p :: rest => (p.1, canonVal p.2) :: canonEntries rest

end

mutual

/-- Rendering of a (canonicalized) value as a JSON text, mirroring
`json.dumps` with its default separators.  String escaping is elided: the
fingerprints used by this repository are plain identifiers and tickers. -/
def renderVal : Val → String
  | .vnull => "null"
  | .vbool b => if b then "true" else "false"
  | .vint n => toString n
  | .vstr s => "\"" ++ s ++ "\""
  | .vlist xs => "[" ++ renderList xs ++ "]"
  | .vdict l => "\x7b" ++ renderEntries l ++ "\x7d"

def renderList : List Val → String
  | [] => ""
  | [v] => renderVal v
  | v :: vs => renderVal v ++ ", " ++ renderList vs

def renderEntries : List (String × Val) → String
  | [] => ""
  | [p] => "\"" ++ p.1 ++ "\": " ++ renderVal p.2
  | p :: rest => "\"" ++ p.1 ++ "\": " ++ renderVal p.2 ++ ", " ++ renderEntries rest

end

/-- The `data` argument of `CacheManager._generate_cache_key`: either a string
or a dict (`Union[str, Dict[str, Any]]`). -/
inductive FpData
  | fstr (s : String)
  | fdict (l : List (String × Val))

/-- The string that `_generate_cache_key` hashes: `json.dumps(data,
sort_keys=True)` for a dict, `str(data)` (identity on strings) otherwise. -/
def fpString : FpData → String
  | .fstr s => s
  | .fdict l => renderVal (canonVal (.vdict l))

/-- `CacheManager._generate_cache_key`: md5 hex digest of the canonical
serialization.  The digest itself (`hashlib.md5(...).hexdigest()`) is an
opaque pure function of its input string, so it is passed as a parameter
`md5 : String → String`; every property proved below holds for the real
digest function in particular. -/
def generateCacheKey (md5 : String → String) (data : FpData) : String :=
  md5 (fpString data)

/-- `CacheManager._get_cache_path`: `cache_dir / cache_type / key.cache`. -/
def getCachePath (cacheDir cacheType key : String) : String :=
  cacheDir ++ "/" ++ cacheType ++ "/" ++ key ++ ".cache"

/-- A cache file on disk: its `st_mtime` and its pickled content (the cache
entry dict written by `cache_response`). -/
structure CacheFile where
  mtime : Nat
  content : Val

/-- State of a `CacheManager`: the files keyed by (cache_type, cache_key),
plus the constructor's `default_ttl` (600 seconds unless overridden). -/
structure CacheState where
  files : List ((String × String) × CacheFile)
  defaultTtl : Nat

/-- Look a file up by its (cache_type, key) path. -/
def findFile (p : String × String) : List ((String × String) × CacheFile) → Option CacheFile
  | [] => none
  | q :: rest => if q.1 = p then some q.2 else findFile p rest

/-- Overwrite (or create) the file at path `p`: `open(cache_path, 'wb')`
truncates, so at most one file per path exists. -/
def setFile (p : String × String) (f : CacheFile)
    (files : List ((String × String) × CacheFile)) :
    List ((String × String) × CacheFile) :=
  files.filter (fun q => q.1 ≠ p) ++ [(p, f)]

/-- `CacheManager._is_cache_valid`: the file exists and
`(now - mtime).total_seconds() < ttl`. -/
def isCacheValid (st : CacheState) (now : Nat) (path : String × String) (ttl : Nat) : Bool :=
  match findFile path st.files with
  | none => false
  | some f => now - f.mtime < ttl

/-- Effective TTL computed by `ttl = ttl or self.default_ttl`: `None` and `0`
are both falsy in Python, so both fall back to the default. -/
def effectiveTtl (st : CacheState) (ttl : Option Nat) : Nat :=
  match ttl with
  | none => st.defaultTtl
  | some t => if t = 0 then st.defaultTtl else t

/-- `CacheManager.get_cached_response` on the exception-free path: compute the
key and path, default the TTL, and return the unpickled file content when
`_is_cache_valid` holds, `None` otherwise. -/
def getCachedResponse (md5 : String → String) (st : CacheState) (now : Nat)
    (cacheType : String) (data : FpData) (ttl : Option Nat) : Option Val :=
  let key := generateCacheKey md5 data
  let path := (cacheType, key)
  let t := effectiveTtl st ttl
  if isCacheValid st now path t then
    match findFile path st.files with
    | some f => some f.content
    | none => none
  else
    none

/-- The cache entry dict pickled by `cache_response`:
`\x7b"response": ..., "cached_at": ..., "cache_key": ..., "cache_type": ...\x7d`.
`datetime.now().isoformat()` is abstracted to the decimal rendering of `now`. -/
def cacheEntryVal (now : Nat) (cacheType key : String) (response : Val) : Val :=
  .vdict [("response", response),
          ("cached_at", .vstr (toString now)),
          ("cache_key", .vstr key),
          ("cache_type", .vstr cacheType)]

/-- `CacheManager.cache_response` on the exception-free path: pickle the entry
dict to the key's path (overwriting) and return `True`. -/
def cacheResponse (md5 : String → String) (st : CacheState) (now : Nat)
    (cacheType : String) (data : FpData) (response : Val) : CacheState × Bool :=
  let key := generateCacheKey md5 data
  let path := (cacheType, key)
  let entry := cacheEntryVal now cacheType key response
  ({ st with files := setFile path ⟨now, entry⟩ st.files }, true)

/-- `CacheManager.get_cached_response` including its `try/except`: any I/O or
deserialization error inside the body is caught and turned into `None`. -/
def getCachedResponseF (ioError : Bool) (md5 : String → String) (st : CacheState)
    (now : Nat) (cacheType : String) (data : FpData) (ttl : Option Nat) : Option Val :=
  if ioError then none else getCachedResponse md5 st now cacheType data ttl

/-- `CacheManager.cache_response` including its `try/except`: any I/O error is
caught and turned into a `False` return value. -/
def cacheResponseF (ioError : Bool) (md5 : String → String) (st : CacheState)
    (now : Nat) (cacheType : String) (data : FpData) (response : Val) : CacheState × Bool :=
  if ioError then (st, false) else cacheResponse md5 st now cacheType data response

/-- The three namespaces swept by `cleanup_expired_cache`. -/
def cacheNamespaces : List String := ["llm", "api", "reports"]

/-- Whether `cleanup_expired_cache` removes a given file at time `now`:
it lives in one of the three namespace directories and
`not _is_cache_valid(file, default_ttl)`, i.e. `now - mtime >= default_ttl`. -/
def sweepRemoves (st : CacheState) (now : Nat) (q : (String × String) × CacheFile) : Bool :=
  q.1.1 ∈ cacheNamespaces ∧ ¬ (now - q.2.mtime < st.defaultTtl)

/-- `CacheManager.cleanup_expired_cache`: for each of the three namespaces,
unlink every `.cache` file that `_is_cache_valid(file, self.default_ttl)`
rejects, and return the number of files removed. -/
def cleanupExpiredCache (st : CacheState) (now : Nat) : CacheState × Nat :=
  ({ st with files := st.files.filter (fun q => ¬ sweepRemoves st now q) },
   (st.files.filter (sweepRemoves st now)).length)

/-- A record in `temp/api_responses`: the JSON object written by
`TempStorage.store_api_response` (`ticker`, `api_name`, `timestamp`, `ttl`,
`data`) together with the file's mtime.  The `%Y%m%d_%H%M%S` filename
timestamp has one-second resolution and equals the write time, so it is
abstracted to the decimal rendering of the mtime. -/
structure TempRecord where
  ticker : String
  apiName : String
  mtime : Nat
  ttl : Nat
  data : Val

/-- A record in `temp/reports` written by `TempStorage.store_report`. -/
structure ReportRecord where
  ticker : String
  mtime : Nat
  ttl : Nat
  report : Val

/-- A record in `temp/embeddings` written by `TempStorage.store_embeddings`. -/
structure EmbRecord where
  ticker : String
  mtime : Nat
  ttl : Nat
  embeddings : Val

/-- State of a `TempStorage`: the files in the three subdirectories, in
creation order, plus the constructor's `default_ttl`. -/
structure TempState where
  apiResponses : List TempRecord
  reports : List ReportRecord
  embeddings : List EmbRecord
  defaultTtl : Nat

/-- Effective TTL computed by `ttl = ttl or self.default_ttl` in the temp
store operations: `None` and `0` both fall back to the default. -/
def tempEffTtl (st : TempState) (ttl : Option Nat) : Nat :=
  match ttl with
  | none => st.defaultTtl
  | some t => if t = 0 then st.defaultTtl else t

/-- Filename of an api-response record:
`f"\x7bticker\x7d_\x7bapi_name\x7d_\x7btimestamp\x7d.json"`. -/
def tempFileName (r : TempRecord) : String :=
  r.ticker ++ "_" ++ r.apiName ++ "_" ++ toString r.mtime ++ ".json"

/-- Whether a stored record is matched by the glob
`f"\x7bticker\x7d_\x7bapi_name\x7d_*.json"` used by `get_api_response`:
the glob matches any filename that extends the queried `ticker_api_` text. -/
def matchesApi (ticker apiName : String) (r : TempRecord) : Bool :=
  strBegins (tempFileName r) (ticker ++ "_" ++ apiName ++ "_")

/-- Filename of a report record: `f"report_\x7bticker\x7d_\x7btimestamp\x7d.json"`. -/
def reportFileName (r : ReportRecord) : String :=
  "report_" ++ r.ticker ++ "_" ++ toString r.mtime ++ ".json"

/-- Whether a report record is matched by the glob
`f"report_\x7bticker\x7d_*.json"` used by `get_report`. -/
def matchesReport (ticker : String) (r : ReportRecord) : Bool :=
  strBegins (reportFileName r) ("report_" ++ ticker ++ "_")

/-- Python's `max(files, key=lambda f: f.stat().st_mtime)`: the first element
of maximal key in iteration order (`max` keeps the current winner unless a
strictly larger key appears); `None` on an empty list (the code never reaches
`max` with an empty list). -/
def pickLatest (mt : α → Nat) : List α → Option α
  | [] => none
  | r :: rest =>
    match pickLatest mt rest with
    | none => some r
    | some m => if mt m > mt r then some m else some r

/-- `TempStorage.store_api_response` on the exception-free path: write the
record under its timestamped filename (overwriting a file of the same name,
i.e. a same-second write for the same `ticker_api_` text) and return the
file path. -/
def storeApiResponse (st : TempState) (now : Nat) (ticker apiName : String)
    (data : Val) (ttl : Option Nat) : TempState × String :=
  let t := tempEffTtl st ttl
  let r : TempRecord := ⟨ticker, apiName, now, t, data⟩
  ({ st with apiResponses :=
      st.apiResponses.filter (fun q => tempFileName q ≠ tempFileName r) ++ [r] },
   "temp/api_responses/" ++ tempFileName r)

/-- `TempStorage.get_api_response` on the exception-free path: glob the
matching files; if none, `None`; otherwise take the file with the greatest
mtime; if `max_age` is `None`, use that record's own stored `ttl` field; then
return `None` when `now - mtime > max_age`, else the record's `data` field. -/
def getApiResponse (st : TempState) (now : Nat) (ticker apiName : String)
    (maxAge : Option Nat) : Option Val :=
  let files := st.apiResponses.filter (matchesApi ticker apiName)
  match pickLatest TempRecord.mtime files with
  | none => none
  | some latest =>
    let m := match maxAge with
      | none => latest.ttl
      | some a => a
    if now - latest.mtime > m then none else some latest.data

/-- `TempStorage.store_report` on the exception-free path. -/
def storeReport (st : TempState) (now : Nat) (ticker : String)
    (reportData : Val) (ttl : Option Nat) : TempState × String :=
  let t := tempEffTtl st ttl
  let r : ReportRecord := ⟨ticker, now, t, reportData⟩
  ({ st with reports :=
      st.reports.filter (fun q => reportFileName q ≠ reportFileName r) ++ [r] },
   "temp/reports/" ++ reportFileName r)

/-- `TempStorage.get_report` on the exception-free path: same algorithm as
`get_api_response` against the `reports` subdirectory. -/
def getReport (st : TempState) (now : Nat) (ticker : String)
    (maxAge : Option Nat) : Option Val :=
  let files := st.reports.filter (matchesReport ticker)
  match pickLatest ReportRecord.mtime files with
  | none => none
  | some latest =>
    let m := match maxAge with
      | none => latest.ttl
      | some a => a
    if now - latest.mtime > m then none else some latest.report

/-- `TempStorage.store_embeddings` on the exception-free path (write-only). -/
def storeEmbeddings (st : TempState) (now : Nat) (ticker : String)
    (embeddingsData : Val) (ttl : Option Nat) : TempState × String :=
  let t := tempEffTtl st ttl
  let r : EmbRecord := ⟨ticker, now, t, embeddingsData⟩
  ({ st with embeddings :=
      st.embeddings.filter (fun q => ¬ (q.ticker = ticker ∧ q.mtime = now)) ++ [r] },
   "temp/embeddings/embeddings_" ++ ticker ++ "_" ++ toString now ++ ".json")

/-- `TempStorage.store_api_response` including its `try/except`: an I/O error
is logged and re-raised (`raise`), so the caller sees the exception. -/
def storeApiResponseF (ioError : Bool) (st : TempState) (now : Nat)
    (ticker apiName : String) (data : Val) (ttl : Option Nat) :
    Except String (TempState × String) :=
  if ioError then .error "Error storing API response"
  else .ok (storeApiResponse st now ticker apiName data ttl)

/-- `TempStorage.get_api_response` including its `try/except`: any I/O or
JSON error is caught and turned into `None`. -/
def getApiResponseF (ioError : Bool) (st : TempState) (now : Nat)
    (ticker apiName : String) (maxAge : Option Nat) : Option Val :=
  if ioError then none else getApiResponse st now ticker apiName maxAge

/-- `TempStorage.store_report` including its `try/except`: re-raises. -/
def storeReportF (ioError : Bool) (st : TempState) (now : Nat) (ticker : String)
    (reportData : Val) (ttl : Option Nat) : Except String (TempState × String) :=
  if ioError then .error "Error storing report"
  else .ok (storeReport st now ticker reportData ttl)

/-- `TempStorage.get_report` including its `try/except`: errors become `None`. -/
def getReportF (ioError : Bool) (st : TempState) (now : Nat) (ticker : String)
    (maxAge : Option Nat) : Option Val :=
  if ioError then none else getReport st now ticker maxAge

/-- `TempStorage.store_embeddings` including its `try/except`: re-raises. -/
def storeEmbeddingsF (ioError : Bool) (st : TempState) (now : Nat) (ticker : String)
    (embeddingsData : Val) (ttl : Option Nat) : Except String (TempState × String) :=
  if ioError then .error "Error storing embeddings"
  else .ok (storeEmbeddings st now ticker embeddingsData ttl)

/-- Whether `cleanup_expired_files` removes an api-response record at time
`now`: its stored `ttl` field (always present on records written by this
store) satisfies `now - mtime > ttl`. -/
def tempSweepRemoves (now : Nat) (r : TempRecord) : Bool :=
  now - r.mtime > r.ttl

/-- Removal test of `cleanup_expired_files` for a report record. -/
def reportSweepRemoves (now : Nat) (r : ReportRecord) : Bool :=
  now - r.mtime > r.ttl

/-- Removal test of `cleanup_expired_files` for an embeddings record. -/
def embSweepRemoves (now : Nat) (r : EmbRecord) : Bool :=
  now - r.mtime > r.ttl

/-- `TempStorage.cleanup_expired_files`: for each of the three
subdirectories, unlink every `.json` file whose own stored `ttl` is exceeded
by its age (`file_age > ttl`), and return the number of files removed. -/
def cleanupExpiredFiles (st : TempState) (now : Nat) : TempState × Nat :=
  ({ st with
      apiResponses := st.apiResponses.filter (fun r => ¬ tempSweepRemoves now r),
      reports := st.reports.filter (fun r => ¬ reportSweepRemoves now r),
      embeddings := st.embeddings.filter (fun r => ¬ embSweepRemoves now r) },
   (st.apiResponses.filter (tempSweepRemoves now)).length
     + (st.reports.filter (reportSweepRemoves now)).length
     + (st.embeddings.filter (embSweepRemoves now)).length)

/-- State of a `StorageManager`: the composed cache and temp states, the
`enable_vector_storage` flag, and the held `VectorDatabase` instance
(`self.vector_db`), modelled as `some collectionExists` — the only local
facts about the external service the manager's control flow depends on. -/
structure SMState where
  cache : CacheState
  temp : TempState
  enableVector : Bool
  vectorDb : Option Bool

/-- Truthiness of an optional value (`if cached_data:` where the binding may
be `None`). -/
def optTruthy : Option Val → Bool
  | none => false
  | some v => truthy v

/-- Fingerprint `\x7b"api": api_name, "params": params\x7d` built by
`get_cached_api_response` / `cache_api_response`. -/
def apiFingerprint (apiName : String) (params : List (String × Val)) : FpData :=
  .fdict [("api", .vstr apiName), ("params", .vdict params)]

/-- Fingerprint `\x7b"ticker": ticker\x7d` used by the report cache methods. -/
def reportFingerprint (ticker : String) : FpData :=
  .fdict [("ticker", .vstr ticker)]

/-- `StorageManager.initialize`: if vector storage is enabled and an instance
is held, probe connectivity (`test_connection`, which itself never raises);
on failure latch `enable_vector_storage = False` and drop the instance, then
return `True`; on success call `create_collection` — if that raises, the
`except` clause returns `False`; otherwise return `True`. -/
def initStorageManager (st : SMState) (probeOk createRaises : Bool) : SMState × Bool :=
  if st.enableVector && st.vectorDb.isSome then
    if !probeOk then
      ({ st with enableVector := false, vectorDb := none }, true)
    else if createRaises then
      (st, false)
    else
      ({ st with vectorDb := some true }, true)
  else
    (st, true)

/-- `StorageManager.get_or_fetch_data`.  `fetchResult` is the outcome of
`await fetch_func(ticker)` (`Except.error` models the callable raising);
`now` is the wall-clock second at which the call runs.  Returns the new
state and the returned value. -/
def getOrFetchData (md5 : String → String) (st : SMState) (now : Nat)
    (ticker apiName : String) (fetchResult : Except String Val)
    (forceRefresh : Bool) (cacheTtl : Option Nat) : SMState × Val :=
  let fp := apiFingerprint apiName [("ticker", .vstr ticker)]
  let cached := if forceRefresh then none
    else getCachedResponse md5 st.cache now "api" fp cacheTtl
  if optTruthy cached then
    (st, cached.getD .vnull)
  else
    let tempData := getApiResponse st.temp now ticker apiName cacheTtl
    if optTruthy tempData && !forceRefresh then
      let c := cacheResponse md5 st.cache now "api" fp (tempData.getD .vnull)
      ({ st with cache := c.1 }, tempData.getD .vnull)
    else
      match fetchResult with
      | .ok fresh =>
        let c := cacheResponse md5 st.cache now "api" fp fresh
        let t := storeApiResponse st.temp now ticker apiName fresh cacheTtl
        ({ st with cache := c.1, temp := t.1 }, fresh)
      | .error e =>
        if optTruthy tempData then
          (st, tempData.getD .vnull)
        else
          (st, .vdict [("error", .vstr ("Failed to fetch data: " ++ e)),
                       ("ticker", .vstr ticker)])

/-- `StorageManager.get_or_generate_report`: the same tiered algorithm
against the `reports` cache namespace and the temp `reports` kind. -/
def getOrGenerateReport (md5 : String → String) (st : SMState) (now : Nat)
    (ticker : String) (genResult : Except String Val)
    (forceRefresh : Bool) (cacheTtl : Option Nat) : SMState × Val :=
  let fp := reportFingerprint ticker
  let cached := if forceRefresh then none
    else getCachedResponse md5 st.cache now "reports" fp cacheTtl
  if optTruthy cached then
    (st, cached.getD .vnull)
  else
    let tempReport := getReport st.temp now ticker cacheTtl
    if optTruthy tempReport && !forceRefresh then
      let c := cacheResponse md5 st.cache now "reports" fp (tempReport.getD .vnull)
      ({ st with cache := c.1 }, tempReport.getD .vnull)
    else
      match genResult with
      | .ok fresh =>
        let c := cacheResponse md5 st.cache now "reports" fp fresh
        let t := storeReport st.temp now ticker fresh cacheTtl
        ({ st with cache := c.1, temp := t.1 }, fresh)
      | .error e =>
        if optTruthy tempReport then
          (st, tempReport.getD .vnull)
        else
          (st, .vdict [("error", .vstr ("Failed to generate report: " ++ e)),
                       ("ticker", .vstr ticker)])

/-- `StorageManager.cleanup_expired_data`: run both sweeps and return the
pair of removal counts. -/
def cleanupExpiredData (st : SMState) (now : Nat) : SMState × (Nat × Nat) :=
  let c := cleanupExpiredCache st.cache now
  let t := cleanupExpiredFiles st.temp now
  ({ st with cache := c.1, temp := t.1 }, (c.2, t.2))

/-- `StorageManager.clear_all_storage`: `clear_cache()` unlinks the `.cache`
files of the three namespaces; `temp_storage.clear_all()` removes the whole
temp tree. -/
def clearAllStorage (st : SMState) : SMState :=
  { st with
      cache := { st.cache with
        files := st.cache.files.filter (fun q => q.1.1 ∉ cacheNamespaces) },
      temp := { st.temp with apiResponses := [], reports := [], embeddings := [] } }

/-- The public operations of a `StorageManager`, each carrying its arguments
and the behaviour of the external world during the call (`now`, fetch
results, probe results, I/O oracles are all explicit). -/
inductive SMOp
  | initOp (probeOk createRaises : Bool)
  | getCachedLlm (now : Nat) (prompt : String) (ttl : Option Nat)
  | cacheLlm (now : Nat) (prompt : String) (response : Val)
  | getCachedApi (now : Nat) (apiName : String) (params : List (String × Val)) (ttl : Option Nat)
  | cacheApi (now : Nat) (apiName : String) (params : List (String × Val)) (response : Val)
  | getCachedRep (now : Nat) (ticker : String) (ttl : Option Nat)
  | cacheRep (now : Nat) (ticker : String) (report : Val)
  | storeApiTemp (now : Nat) (ticker apiName : String) (data : Val) (ttl : Option Nat)
  | getApiTemp (now : Nat) (ticker apiName : String) (maxAge : Option Nat)
  | storeRepTemp (now : Nat) (ticker : String) (report : Val) (ttl : Option Nat)
  | getRepTemp (now : Nat) (ticker : String) (maxAge : Option Nat)
  | storeFinancial (ticker : String) (data : Val)
  | storeNews (ticker : String) (data : Val)
  | storeRepVec (ticker : String) (data : Val)
  | searchDocs (query : String)
  | getOrFetch (now : Nat) (ticker apiName : String) (fetchResult : Except String Val)
      (forceRefresh : Bool) (cacheTtl : Option Nat)
  | getOrGenerate (now : Nat) (ticker : String) (genResult : Except String Val)
      (forceRefresh : Bool) (cacheTtl : Option Nat)
  | getStats
  | cleanup (now : Nat)
  | clearAll

/-- Effect of each `StorageManager` operation on the manager's state.  The
vector-database store/search methods only read `enable_vector_storage` and
talk to the external service; lookups read the file stores. -/
def applyOp (md5 : String → String) (st : SMState) : SMOp → SMState
  | .initOp probeOk createRaises => (initStorageManager st probeOk createRaises).1
  | .getCachedLlm _ _ _ => st
  | .cacheLlm now prompt response =>
    { st with cache := (cacheResponse md5 st.cache now "llm" (.fstr prompt) response).1 }
  | .getCachedApi _ _ _ _ => st
  | .cacheApi now apiName params response =>
    { st with cache :=
        (cacheResponse md5 st.cache now "api" (apiFingerprint apiName params) response).1 }
  | .getCachedRep _ _ _ => st
  | .cacheRep now ticker report =>
    { st with cache :=
        (cacheResponse md5 st.cache now "reports" (reportFingerprint ticker) report).1 }
  | .storeApiTemp now ticker apiName data ttl =>
    { st with temp := (storeApiResponse st.temp now ticker apiName data ttl).1 }
  | .getApiTemp _ _ _ _ => st
  | .storeRepTemp now ticker report ttl =>
    { st with temp := (storeReport st.temp now ticker report ttl).1 }
  | .getRepTemp _ _ _ => st
  | .storeFinancial _ _ => st
  | .storeNews _ _ => st
  | .storeRepVec _ _ => st
  | .searchDocs _ => st
  | .getOrFetch now ticker apiName fetchResult forceRefresh cacheTtl =>
    (getOrFetchData md5 st now ticker apiName fetchResult forceRefresh cacheTtl).1
  | .getOrGenerate now ticker genResult forceRefresh cacheTtl =>
    (getOrGenerateReport md5 st now ticker genResult forceRefresh cacheTtl).1
  | .getStats => st
  | .cleanup now => (cleanupExpiredData st now).1
  | .clearAll => clearAllStorage st

/-- Run a sequence of operations from left to right. -/
def runOps (md5 : String → String) (st : SMState) (ops : List SMOp) : SMState :=
  ops.foldl (applyOp md5) st

/-- Number of `true → false` transitions of the `enable_vector_storage` flag
along a run. -/
def countFlips (md5 : String → String) : SMState → List SMOp → Nat
  | _, [] => 0
  | st, op :: ops =>
    let st' := applyOp md5 st op
    (if st.enableVector && !st'.enableVector then 1 else 0) + countFlips md5 st' ops

/-- A concrete stand-in digest function used when instantiating theorems at
concrete inputs: the theorems about cache behaviour hold for every digest
function `md5`, the real `hashlib.md5(...).hexdigest()` included. -/
def idDigest : String → String := fun s => s

/-! Helper lemmas about the embedding. -/

mutual

theorem valBeq_refl : ∀ a : Val, valBeq a a = true
  | .vnull => rfl
  | .vbool b => by simp [valBeq]
  | .vint n => by simp [valBeq]
  | .vstr s => by simp [valBeq]
  | .vlist xs => valListBeq_refl xs
  | .vdict l => valEntriesBeq_refl l

theorem valListBeq_refl : ∀ l : List Val, valListBeq l l = true
  | [] => rfl
  | x :: xs => by
    simp only [valListBeq, Bool.and_eq_true]
    exact ⟨valBeq_refl x, valListBeq_refl xs⟩

theorem valEntriesBeq_refl : ∀ l : List (String × Val), valEntriesBeq l l = true
  | [] => rfl
  | p :: ps => by
    simp only [valEntriesBeq, Bool.and_eq_true, beq_self_eq_true]
    exact ⟨⟨trivial, valBeq_refl p.2⟩, valEntriesBeq_refl ps⟩

end

theorem valNe_of_beq_false {a b : Val} (h : valBeq a b = false) : a ≠ b := by
  intro e
  subst e
  rw [valBeq_refl] at h
  cases h

theorem charToNat_inj {a b : Char} (h : a.toNat = b.toNat) : a = b := by
  have h1 : Char.ofNat a.toNat = Char.ofNat b.toNat := by rw [h]
  rwa [Char.ofNat_toNat, Char.ofNat_toNat] at h1

theorem charListLe_total : ∀ as bs, charListLe as bs = true ∨ charListLe bs as = true
  | [], _ => Or.inl rfl
  | _ :: _, [] => Or.inr rfl
  | a :: as, b :: bs => by
    rcases Nat.lt_trichotomy a.toNat b.toNat with h | h | h
    · left; simp [charListLe, Nat.ne_of_lt h, h]
    · rcases charListLe_total as bs with ih | ih
      · left; simp [charListLe, h, ih]
      · right; simp [charListLe, h.symm, ih]
    · right; simp [charListLe, Nat.ne_of_lt h, h]

theorem charListLe_trans : ∀ as bs cs, charListLe as bs = true → charListLe bs cs = true →
    charListLe as cs = true
  | [], _, _, _, _ => rfl
  | _ :: _, [], _, h, _ => by simp [charListLe] at h
  | _ :: _, _ :: _, [], _, h => by simp [charListLe] at h
  | a :: as, b :: bs, c :: cs, h1, h2 => by
    by_cases hab : a.toNat = b.toNat <;> by_cases hbc : b.toNat = c.toNat
    · have h3 := hab.trans hbc
      simp only [charListLe, if_pos hab] at h1
      simp only [charListLe, if_pos hbc] at h2
      simp only [charListLe, if_pos h3]
      exact charListLe_trans as bs cs h1 h2
    · simp only [charListLe, if_pos hab, if_neg hbc, decide_eq_true_eq] at h1 h2
      have h3 : a.toNat < c.toNat := hab ▸ h2
      simp [charListLe, Nat.ne_of_lt h3, h3]
    · simp only [charListLe, if_neg hab, if_pos hbc, decide_eq_true_eq] at h1 h2
      have h3 : a.toNat < c.toNat := hbc ▸ h1
      simp [charListLe, Nat.ne_of_lt h3, h3]
    · simp only [charListLe, if_neg hab, if_neg hbc, decide_eq_true_eq] at h1 h2
      have h3 : a.toNat < c.toNat := Nat.lt_trans h1 h2
      simp [charListLe, Nat.ne_of_lt h3, h3]

theorem charListLe_antisymm : ∀ as bs, charListLe as bs = true → charListLe bs as = true →
    as = bs
  | [], [], _, _ => rfl
  | [], _ :: _, _, h => by simp [charListLe] at h
  | _ :: _, [], h, _ => by simp [charListLe] at h
  | a :: as, b :: bs, h1, h2 => by
    by_cases hab : a.toNat = b.toNat
    · simp only [charListLe, if_pos hab, if_pos hab.symm] at h1 h2
      rw [charToNat_inj hab, charListLe_antisymm as bs h1 h2]
    · simp only [charListLe, if_neg hab, if_neg (Ne.symm hab), decide_eq_true_eq] at h1 h2
      omega

theorem pyStrLe_antisymm {a b : String} (h1 : pyStrLe a b = true) (h2 : pyStrLe b a = true) :
    a = b := by
  cases a with
  | mk da =>
    cases b with
    | mk db =>
      have := charListLe_antisymm da db h1 h2
      simp [this]

instance : IsTotal (String × Val) keyLe :=
  ⟨fun p q => charListLe_total p.1.data q.1.data⟩

instance : IsTrans (String × Val) keyLe :=
  ⟨fun p q r h1 h2 => charListLe_trans p.1.data q.1.data r.1.data h1 h2⟩

theorem findFile_append (p : String × String) :
    ∀ (l₁ l₂ : List ((String × String) × CacheFile)), findFile p (l₁ ++ l₂) =
      match findFile p l₁ with
      | some f => some f
      | none => findFile p l₂
  | [], _ => rfl
  | q :: rest, l₂ => by
    by_cases h : q.1 = p
    · simp [findFile, h]
    · simp [findFile, h, findFile_append p rest l₂]

theorem findFile_filter_ne (p : String × String) :
    ∀ (l : List ((String × String) × CacheFile)),
      findFile p (l.filter (fun q => q.1 ≠ p)) = none
  | [] => rfl
  | q :: rest => by
    by_cases h : q.1 = p
    · simpa [List.filter_cons, h] using findFile_filter_ne p rest
    · simpa [List.filter_cons, h, findFile] using findFile_filter_ne p rest

theorem findFile_setFile (p : String × String) (f : CacheFile) (files : List ((String × String) × CacheFile)) :
    findFile p (setFile p f files) = some f := by
  rw [setFile, findFile_append, findFile_filter_ne]
  simp [findFile]

theorem pickLatest_eq_none {mt : α → Nat} : ∀ {l : List α}, pickLatest mt l = none → l = []
  | [], _ => rfl
  | r :: rest, h => by
    rw [pickLatest] at h
    rcases e : pickLatest mt rest with _ | m
    · rw [e] at h; cases h
    · rw [e] at h
      by_cases hm : mt m > mt r <;> simp [hm] at h

theorem pickLatest_mem {mt : α → Nat} : ∀ {l : List α} {r : α}, pickLatest mt l = some r → r ∈ l
  | [], _, h => by cases h
  | x :: rest, r, h => by
    rw [pickLatest] at h
    rcases e : pickLatest mt rest with _ | m <;> rw [e] at h
    · cases h; exact List.mem_cons_self x rest
    · by_cases hm : mt m > mt x <;> simp [hm] at h
      · subst h; exact List.mem_cons_of_mem x (pickLatest_mem e)
      · subst h; exact List.mem_cons_self x rest

theorem pickLatest_maximal {mt : α → Nat} : ∀ {l : List α} {r : α}, pickLatest mt l = some r →
    ∀ x ∈ l, mt x ≤ mt r
  | [], _, h => by cases h
  | x :: rest, r, h => by
    rw [pickLatest] at h
    rcases e : pickLatest mt rest with _ | m <;> rw [e] at h
    · cases h
      intro y hy
      rcases List.mem_cons.mp hy with h' | h'
      · rw [h']
      · rw [pickLatest_eq_none e] at h'; cases h'
    · by_cases hm : mt m > mt x <;> simp [hm] at h <;> subst h
      · intro y hy
        rcases List.mem_cons.mp hy with h' | h'
        · rw [h']; exact Nat.le_of_lt hm
        · exact pickLatest_maximal e y h'
      · intro y hy
        rcases List.mem_cons.mp hy with h' | h'
        · rw [h']
        · exact Nat.le_trans (pickLatest_maximal e y h') (Nat.le_of_not_lt hm)

theorem eq_of_perm_sorted_nodupKeys :
    ∀ (l₁ l₂ : List (String × Val)), l₁.Perm l₂ →
      l₁.Sorted keyLe → l₂.Sorted keyLe → (l₁.map Prod.fst).Nodup → l₁ = l₂
  | [], l₂, hp, _, _, _ => hp.nil_eq
  | a :: t₁, l₂, hp, hs₁, hs₂, hnd => by
    cases l₂ with
    | nil => exact absurd hp.symm.nil_eq (by simp)
    | cons b t₂ =>
      have hnd₁ : a.1 ∉ t₁.map Prod.fst ∧ (t₁.map Prod.fst).Nodup := by
        rw [List.map_cons, List.nodup_cons] at hnd
        exact hnd
      have hab : a = b := by
        have ha2 : a ∈ b :: t₂ := hp.subset (List.mem_cons_self a t₁)
        have hb1 : b ∈ a :: t₁ := hp.symm.subset (List.mem_cons_self b t₂)
        rcases List.mem_cons.mp ha2 with h | ha2'
        · exact h
        rcases List.mem_cons.mp hb1 with h | hb1'
        · exact h.symm
        have h1 : keyLe a b := (List.sorted_cons.mp hs₁).1 b hb1'
        have h2 : keyLe b a := (List.sorted_cons.mp hs₂).1 a ha2'
        have hk : a.1 = b.1 := pyStrLe_antisymm h1 h2
        have hmem : a.1 ∈ t₁.map Prod.fst := List.mem_map.mpr ⟨b, hb1', hk.symm⟩
        exact absurd hmem hnd₁.1
      subst hab
      have ht : t₁.Perm t₂ := hp.cons_inv
      rw [eq_of_perm_sorted_nodupKeys t₁ t₂ ht (List.sorted_cons.mp hs₁).2
        (List.sorted_cons.mp hs₂).2 hnd₁.2]

theorem canonEntries_eq_map :
    ∀ l : List (String × Val), canonEntries l = l.map (fun p => (p.1, canonVal p.2))
  | [] => rfl
  | p :: rest => by simp [canonEntries, canonEntries_eq_map rest]

theorem canonVal_fdict_perm {l₁ l₂ : List (String × Val)} (hp : l₁.Perm l₂)
    (hnd : (l₁.map Prod.fst).Nodup) :
    canonVal (.vdict l₁) = canonVal (.vdict l₂) := by
  have hpc : (canonEntries l₁).Perm (canonEntries l₂) := by
    rw [canonEntries_eq_map, canonEntries_eq_map]
    exact hp.map _
  have hperm : (List.insertionSort keyLe (canonEntries l₁)).Perm
      (List.insertionSort keyLe (canonEntries l₂)) :=
    ((List.perm_insertionSort keyLe (canonEntries l₁)).trans hpc).trans
      (List.perm_insertionSort keyLe (canonEntries l₂)).symm
  have hkeys : ((List.insertionSort keyLe (canonEntries l₁)).map Prod.fst).Perm
      (l₁.map Prod.fst) := by
    have h1 := (List.perm_insertionSort keyLe (canonEntries l₁)).map Prod.fst
    have h2 : (canonEntries l₁).map Prod.fst = l₁.map Prod.fst := by
      rw [canonEntries_eq_map, List.map_map]
      rfl
    rw [h2] at h1
    exact h1
  have hnds : ((List.insertionSort keyLe (canonEntries l₁)).map Prod.fst).Nodup :=
    hkeys.nodup_iff.mpr hnd
  have heq : List.insertionSort keyLe (canonEntries l₁) =
      List.insertionSort keyLe (canonEntries l₂) :=
    eq_of_perm_sorted_nodupKeys _ _ hperm
      (List.sorted_insertionSort keyLe (canonEntries l₁))
      (List.sorted_insertionSort keyLe (canonEntries l₂)) hnds
  rw [canonVal, canonVal, heq]

theorem charListLead_refl_append : ∀ (p rest : List Char), charListLead p (p ++ rest) = true
  | [], _ => rfl
  | c :: cs, rest => by simp [charListLead, charListLead_refl_append cs rest]

theorem matchesApi_self (t a : String) (r : TempRecord)
    (h1 : r.ticker = t) (h2 : r.apiName = a) : matchesApi t a r = true := by
  unfold matchesApi tempFileName strBegins
  rw [h1, h2]
  have hd : (t ++ "_" ++ a ++ "_" ++ toString r.mtime ++ ".json").data =
      (t ++ "_" ++ a ++ "_").data ++ ((toString r.mtime).data ++ ".json".data) := by
    simp [String.data_append]
  rw [hd]
  exact charListLead_refl_append _ _

theorem length_filter_not_add (p : α → Bool) :
    ∀ l : List α, (l.filter (fun x => ¬ p x)).length + (l.filter p).length = l.length
  | [] => rfl
  | x :: l => by
    by_cases h : p x <;>
      simp [List.filter_cons, h, ← length_filter_not_add p l] <;> omega

theorem getOrFetchData_flag (md5 : String → String) (st : SMState) (now : Nat)
    (ticker apiName : String) (fetchResult : Except String Val)
    (forceRefresh : Bool) (cacheTtl : Option Nat) :
    (getOrFetchData md5 st now ticker apiName fetchResult forceRefresh cacheTtl).1.enableVector =
      st.enableVector := by
  unfold getOrFetchData
  rcases fetchResult with e | v <;> dsimp only <;> split_ifs <;> rfl

theorem getOrGenerateReport_flag (md5 : String → String) (st : SMState) (now : Nat)
    (ticker : String) (genResult : Except String Val)
    (forceRefresh : Bool) (cacheTtl : Option Nat) :
    (getOrGenerateReport md5 st now ticker genResult forceRefresh cacheTtl).1.enableVector =
      st.enableVector := by
  unfold getOrGenerateReport
  rcases genResult with e | v <;> dsimp only <;> split_ifs <;> rfl

theorem applyOp_flag_of_false (md5 : String → String) (st : SMState) (op : SMOp)
    (h : st.enableVector = false) : (applyOp md5 st op).enableVector = false := by
  cases op with
  | initOp probeOk createRaises =>
    simp only [applyOp, initStorageManager, h, Bool.false_and, Bool.false_eq_true,
      if_false]
  | getOrFetch now ticker apiName fetchResult forceRefresh cacheTtl =>
    rw [applyOp, getOrFetchData_flag]; exact h
  | getOrGenerate now ticker genResult forceRefresh cacheTtl =>
    rw [applyOp, getOrGenerateReport_flag]; exact h
  | _ => exact h

theorem countFlips_of_false (md5 : String → String) :
    ∀ (ops : List SMOp) (st : SMState), st.enableVector = false → countFlips md5 st ops = 0
  | [], _, _ => rfl
  | op :: ops, st, h => by
    rw [countFlips]
    have h' := applyOp_flag_of_false md5 st op h
    simp [h, h', countFlips_of_false md5 ops _ h']

/-! Claim theorems. -/

/-- C8: the cache location is a deterministic content hash of the namespace
(directory) plus fingerprint; mapping fingerprints are serialized with sorted
keys, so for every digest function, every permutation of a duplicate-free
mapping — in particular `\x7b"a":1,"b":2\x7d` versus `\x7b"b":2,"a":1\x7d` —
produces the same cache key, and hence the same cache path in every
namespace. -/
theorem C8_cache_key_canonicalization :
    (∀ (md5 : String → String) (l₁ l₂ : List (String × Val)),
        l₁.Perm l₂ → (l₁.map Prod.fst).Nodup →
        generateCacheKey md5 (.fdict l₁) = generateCacheKey md5 (.fdict l₂))
    ∧ (∀ (md5 : String → String) (cacheDir ns : String) (l₁ l₂ : List (String × Val)),
        l₁.Perm l₂ → (l₁.map Prod.fst).Nodup →
        getCachePath cacheDir ns (generateCacheKey md5 (.fdict l₁)) =
          getCachePath cacheDir ns (generateCacheKey md5 (.fdict l₂)))
    ∧ (∀ md5 : String → String,
        generateCacheKey md5 (.fdict [("a", .vint 1), ("b", .vint 2)]) =
          generateCacheKey md5 (.fdict [("b", .vint 2), ("a", .vint 1)])) := by
  have key : ∀ (md5 : String → String) (l₁ l₂ : List (String × Val)),
      l₁.Perm l₂ → (l₁.map Prod.fst).Nodup →
      generateCacheKey md5 (.fdict l₁) = generateCacheKey md5 (.fdict l₂) := by
    intro md5 l₁ l₂ hp hnd
    simp only [generateCacheKey, fpString]
    rw [canonVal_fdict_perm hp hnd]
  refine ⟨key, fun md5 cacheDir ns l₁ l₂ hp hnd => ?_, fun md5 => ?_⟩
  · rw [key md5 l₁ l₂ hp hnd]
  · exact congrArg md5 rfl

/-- Witness for C8 at a concrete input: the two literal key orders of the
spec's example produce the same key. -/
theorem C8_witness :
    generateCacheKey idDigest (.fdict [("a", .vint 1), ("b", .vint 2)]) =
      generateCacheKey idDigest (.fdict [("b", .vint 2), ("a", .vint 1)]) :=
  C8_cache_key_canonicalization.1 idDigest _ _
    (List.Perm.swap ("b", Val.vint 2) ("a", Val.vint 1) []) (by decide)

/-- C1 counterexample: `cache_response("api", fp, 42)` followed immediately by
`get_cached_response("api", fp)` does not return a value equal to `42`: the
stored pickle is the whole entry dict, and `get_cached_response` returns that
dict, not its `response` field. -/
theorem C1_counterexample :
    getCachedResponse idDigest
      (cacheResponse idDigest ⟨[], 600⟩ 0 "api" (.fdict [("ticker", .vstr "AAPL")]) (.vint 42)).1
      0 "api" (.fdict [("ticker", .vstr "AAPL")]) none ≠ some (.vint 42) := by
  intro h
  have hx : getCachedResponse idDigest
      (cacheResponse idDigest ⟨[], 600⟩ 0 "api" (.fdict [("ticker", .vstr "AAPL")]) (.vint 42)).1
      0 "api" (.fdict [("ticker", .vstr "AAPL")]) none =
      some (cacheEntryVal 0 "api"
        (generateCacheKey idDigest (.fdict [("ticker", .vstr "AAPL")])) (.vint 42)) := rfl
  rw [hx] at h
  exact valNe_of_beq_false
    (show valBeq (cacheEntryVal 0 "api"
      (generateCacheKey idDigest (.fdict [("ticker", .vstr "AAPL")])) (.vint 42))
      (.vint 42) = false from rfl)
    (Option.some.inj h)

/-- C1 (amended): for every namespace, fingerprint and serializable `r`,
`put` then immediate `get` returns the cache entry wrapper whose `response`
field equals `r` (not `r` itself), provided the manager's default TTL is
positive (it is 600 by construction). -/
theorem C1_put_then_get (md5 : String → String) (st : CacheState) (now : Nat)
    (ct : String) (data : FpData) (r : Val) (h : 0 < st.defaultTtl) :
    getCachedResponse md5 (cacheResponse md5 st now ct data r).1 now ct data none =
      some (cacheEntryVal now ct (generateCacheKey md5 data) r) := by
  have hf := findFile_setFile (ct, generateCacheKey md5 data)
    ⟨now, cacheEntryVal now ct (generateCacheKey md5 data) r⟩ st.files
  simp [getCachedResponse, cacheResponse, isCacheValid, effectiveTtl, hf, Nat.sub_self, h]

/-- Witness for C1 (amended) at a concrete input. -/
theorem C1_witness :
    getCachedResponse idDigest
      (cacheResponse idDigest ⟨[], 600⟩ 5 "llm" (.fstr "prompt") (.vint 7)).1
      5 "llm" (.fstr "prompt") none =
      some (cacheEntryVal 5 "llm" (generateCacheKey idDigest (.fstr "prompt")) (.vint 7)) :=
  C1_put_then_get idDigest ⟨[], 600⟩ 5 "llm" (.fstr "prompt") (.vint 7) (by decide)

/-- C3 counterexample: an I/O failure inside `TempStorage.store_api_response`
is re-raised to the caller (`except ...: logger.error(...); raise`), so not
every cache/temp file operation converts failures into a miss/no-op. -/
theorem C3_counterexample :
    storeApiResponseF true ⟨[], [], [], 600⟩ 0 "AAPL" "av" (.vint 1) none =
      Except.error "Error storing API response" := rfl

/-- C3 (amended): on an I/O failure, the read operations
(`get_cached_response`, `get_api_response`, `get_report`) return a miss and
`cache_response` returns `False`, none of them raising; but the `TempStorage`
store operations (`store_api_response`, `store_report`, `store_embeddings`)
log and re-raise the exception to the caller. -/
theorem C3_io_error_handling (md5 : String → String) (cst : CacheState)
    (tst : TempState) (now : Nat) (ct tick api : String) (d : FpData) (v : Val)
    (ttl : Option Nat) :
    getCachedResponseF true md5 cst now ct d ttl = none
    ∧ cacheResponseF true md5 cst now ct d v = (cst, false)
    ∧ getApiResponseF true tst now tick api ttl = none
    ∧ getReportF true tst now tick ttl = none
    ∧ storeApiResponseF true tst now tick api v ttl =
        Except.error "Error storing API response"
    ∧ storeReportF true tst now tick v ttl = Except.error "Error storing report"
    ∧ storeEmbeddingsF true tst now tick v ttl = Except.error "Error storing embeddings" :=
  ⟨rfl, rfl, rfl, rfl, rfl, rfl, rfl⟩

/-- C6 counterexample: with the explicit TTL argument `T = 0` the claim
predicts absent (any age is at least 0), but `ttl or self.default_ttl`
replaces 0 by the default 600, so an entry of age 100 is still served. -/
theorem C6_counterexample :
    getCachedResponse idDigest ⟨[(("api", "k"), ⟨0, .vint 7⟩)], 600⟩ 100 "api"
      (.fstr "k") (some 0) = some (.vint 7) := rfl

/-- C6 (amended): for every TTL argument other than an explicit `0` (which
`ttl or default` silently replaces by the default — see C10), `get` is
present exactly when the backing file exists and its age is strictly below
the effective TTL (the explicit argument, or else the process default 600),
hence absent exactly when the file is missing or its age is at least the
effective TTL; and an absent result never becomes present again at a later
time without a fresh put (same state). -/
theorem C6_ttl_gating :
    (∀ (md5 : String → String) (st : CacheState) (now : Nat) (ct : String)
        (data : FpData) (ttl : Option Nat),
        st.defaultTtl = 600 → ttl ≠ some 0 →
        ((getCachedResponse md5 st now ct data ttl).isSome = true ↔
          ∃ f, findFile (ct, generateCacheKey md5 data) st.files = some f ∧
            now - f.mtime < ttl.getD 600))
    ∧ (∀ (md5 : String → String) (st : CacheState) (now now' : Nat) (ct : String)
        (data : FpData) (ttl : Option Nat),
        now ≤ now' →
        getCachedResponse md5 st now ct data ttl = none →
        getCachedResponse md5 st now' ct data ttl = none) := by
  constructor
  · intro md5 st now ct data ttl hd h0
    have ht : effectiveTtl st ttl = ttl.getD 600 := by
      cases ttl with
      | none => simp [effectiveTtl, hd]
      | some t =>
        have hne : t ≠ 0 := fun h => h0 (by rw [h])
        simp [effectiveTtl, hne]
    rcases e : findFile (ct, generateCacheKey md5 data) st.files with _ | f
    · simp [getCachedResponse, isCacheValid, e]
    · by_cases hc : now - f.mtime < ttl.getD 600
      · simp [getCachedResponse, isCacheValid, e, ht, hc]
      · simp [getCachedResponse, isCacheValid, e, ht, hc]
  · intro md5 st now now' ct data ttl h hnone
    rcases e : findFile (ct, generateCacheKey md5 data) st.files with _ | f
    · simp [getCachedResponse, isCacheValid, e]
    · simp only [getCachedResponse, isCacheValid, e] at hnone ⊢
      by_cases hc : now - f.mtime < effectiveTtl st ttl
      · simp [hc] at hnone
      · have hc' : ¬ (now' - f.mtime < effectiveTtl st ttl) := by omega
        simp [hc']

/-- Witness for C6 (amended) at a concrete input: an entry of age 10 under
the default TTL is present. -/
theorem C6_witness :
    (getCachedResponse idDigest ⟨[(("api", "k"), ⟨0, .vint 7⟩)], 600⟩ 10 "api"
        (.fstr "k") none).isSome = true ↔
      ∃ f, findFile ("api", generateCacheKey idDigest (.fstr "k"))
          [(("api", "k"), ⟨0, .vint 7⟩)] = some f ∧ 10 - f.mtime < 600 :=
  C6_ttl_gating.1 idDigest ⟨[(("api", "k"), ⟨0, .vint 7⟩)], 600⟩ 10 "api"
    (.fstr "k") none rfl (by decide)

/-- C5 counterexample: a cache entry whose age is exactly the default TTL
(600) does not exceed it, yet `cleanup_expired_cache` removes it, because
`_is_cache_valid` requires `age < ttl` strictly. -/
theorem C5_counterexample :
    cleanupExpiredCache ⟨[(("api", "k"), ⟨0, .vint 1⟩)], 600⟩ 600 = (⟨[], 600⟩, 1)
    ∧ ¬ ((600 : Nat) - 0 > 600) :=
  ⟨rfl, by decide⟩

/-- C5 (amended): `cleanup_expired_cache` removes exactly the entries of the
three namespaces whose age is at least (not strictly exceeds) the manager's
default TTL — independent of any read/write-time override, which is not even
recorded in the entry — and returns the number of files removed;
`cleanup_expired_files` keeps a temp record exactly when its age does not
strictly exceed the record's own stored `ttl`, and returns the number of
files removed. -/
theorem C5_sweep_policies :
    (∀ (st : CacheState) (now : Nat) (q : (String × String) × CacheFile),
        q ∈ (cleanupExpiredCache st now).1.files ↔
          q ∈ st.files ∧ (q.1.1 ∉ cacheNamespaces ∨ now - q.2.mtime < st.defaultTtl))
    ∧ (∀ (st : CacheState) (now : Nat),
        (cleanupExpiredCache st now).1.files.length + (cleanupExpiredCache st now).2 =
          st.files.length)
    ∧ (∀ (st : TempState) (now : Nat) (r : TempRecord),
        r ∈ (cleanupExpiredFiles st now).1.apiResponses ↔
          r ∈ st.apiResponses ∧ now - r.mtime ≤ r.ttl)
    ∧ (∀ (st : TempState) (now : Nat) (r : ReportRecord),
        r ∈ (cleanupExpiredFiles st now).1.reports ↔
          r ∈ st.reports ∧ now - r.mtime ≤ r.ttl)
    ∧ (∀ (st : TempState) (now : Nat),
        (cleanupExpiredFiles st now).1.apiResponses.length
          + (cleanupExpiredFiles st now).1.reports.length
          + (cleanupExpiredFiles st now).1.embeddings.length
          + (cleanupExpiredFiles st now).2 =
          st.apiResponses.length + st.reports.length + st.embeddings.length) := by
  refine ⟨?_, ?_, ?_, ?_, ?_⟩
  · intro st now q
    simp only [cleanupExpiredCache, List.mem_filter, sweepRemoves]
    constructor
    · rintro ⟨hm, hp⟩
      refine ⟨hm, ?_⟩
      by_cases h1 : q.1.1 ∈ cacheNamespaces <;> by_cases h2 : now - q.2.mtime < st.defaultTtl <;>
        simp [h1, h2] at hp ⊢
    · rintro ⟨hm, hp⟩
      refine ⟨hm, ?_⟩
      by_cases h1 : q.1.1 ∈ cacheNamespaces <;> by_cases h2 : now - q.2.mtime < st.defaultTtl <;>
        simp [h1, h2] at hp ⊢
  · intro st now
    exact length_filter_not_add (sweepRemoves st now) st.files
  · intro st now r
    simp only [cleanupExpiredFiles, List.mem_filter, tempSweepRemoves]
    constructor
    · rintro ⟨hm, hp⟩
      refine ⟨hm, ?_⟩
      simp only [decide_eq_true_eq, Bool.not_eq_true', decide_eq_false_iff_not] at hp
      omega
    · rintro ⟨hm, hp⟩
      refine ⟨hm, ?_⟩
      simp only [decide_eq_true_eq, Bool.not_eq_true', decide_eq_false_iff_not]
      omega
  · intro st now r
    simp only [cleanupExpiredFiles, List.mem_filter, reportSweepRemoves]
    constructor
    · rintro ⟨hm, hp⟩
      refine ⟨hm, ?_⟩
      simp only [decide_eq_true_eq, Bool.not_eq_true', decide_eq_false_iff_not] at hp
      omega
    · rintro ⟨hm, hp⟩
      refine ⟨hm, ?_⟩
      simp only [decide_eq_true_eq, Bool.not_eq_true', decide_eq_false_iff_not]
      omega
  · intro st now
    have h1 := length_filter_not_add (tempSweepRemoves now) st.apiResponses
    have h2 := length_filter_not_add (reportSweepRemoves now) st.reports
    have h3 := length_filter_not_add (embSweepRemoves now) st.embeddings
    simp only [cleanupExpiredFiles]
    omega

/-- C10 counterexample: with an explicit `max_age = 0`, a record read in the
same second it was stored (age exactly 0) is still returned, because the
expiry test is the strict `file_age > max_age`; so the honored zero override
does not make literally every stored record report as expired. -/
theorem C10_counterexample :
    getApiResponse ⟨[⟨"AAPL", "av", 5, 600, .vint 3⟩], [], [], 600⟩ 5 "AAPL" "av"
      (some 0) = some (.vint 3) := rfl

/-- C10 (amended): an explicit TTL of 0 passed to
`CacheManager.get_cached_response` is silently replaced by the default
(`ttl or self.default_ttl`), giving exactly the behaviour of omitting the
argument; an explicit `max_age = 0` passed to `TempStorage.get_api_response`
is honored (only `None` triggers the stored TTL) and reports every record of
strictly positive age as expired — records of age exactly 0 are still
served.  The two stores treat a zero override oppositely. -/
theorem C10_zero_override :
    (∀ (md5 : String → String) (st : CacheState) (now : Nat) (ct : String) (data : FpData),
        getCachedResponse md5 st now ct data (some 0) =
          getCachedResponse md5 st now ct data none)
    ∧ (∀ (st : TempState) (now : Nat) (tick api : String),
        (∀ r ∈ st.apiResponses.filter (matchesApi tick api), r.mtime < now) →
        getApiResponse st now tick api (some 0) = none) := by
  constructor
  · intro md5 st now ct data
    rfl
  · intro st now tick api h
    rcases e : pickLatest TempRecord.mtime (st.apiResponses.filter (matchesApi tick api))
      with _ | r
    · simp [getApiResponse, e]
    · have hr := h r (pickLatest_mem e)
      have hgt : now - r.mtime > 0 := by omega
      simp [getApiResponse, e, hgt]

/-- Witness for C10 (amended) at a concrete input: a 5-second-old record is
reported expired under `max_age = 0`. -/
theorem C10_witness :
    getApiResponse ⟨[⟨"AAPL", "av", 0, 600, .vint 3⟩], [], [], 600⟩ 5 "AAPL" "av"
      (some 0) = none :=
  C10_zero_override.2 ⟨[⟨"AAPL", "av", 0, 600, .vint 3⟩], [], [], 600⟩ 5 "AAPL" "av"
    (by decide)

theorem getApi_two_records (tick api : String) (now : Nat) (rA rB : TempRecord)
    (rep : List ReportRecord) (emb : List EmbRecord) (d : Nat)
    (hAt : rA.ticker = tick) (hAa : rA.apiName = api)
    (hBt : rB.ticker = tick) (hBa : rB.apiName = api)
    (hm : rA.mtime ≤ rB.mtime) (hnow : rB.mtime = now) :
    getApiResponse
      ⟨(List.filter (fun q => tempFileName q ≠ tempFileName rB) [rA]) ++ [rB], rep, emb, d⟩
      now tick api none = some rB.data := by
  have hBm := matchesApi_self tick api rB hBt hBa
  by_cases hf : tempFileName rA = tempFileName rB
  · simp [getApiResponse, List.filter_cons, hf, hBm, pickLatest, hnow, Nat.sub_self]
  · have hAm := matchesApi_self tick api rA hAt hAa
    have hlt : rA.mtime < rB.mtime := by
      rcases Nat.lt_or_ge rA.mtime rB.mtime with h | h
      · exact h
      · have he : rA.mtime = rB.mtime := Nat.le_antisymm hm h
        exact absurd (by unfold tempFileName; rw [hAt, hBt, hAa, hBa, he]) hf
    subst hnow
    simp [getApiResponse, List.filter_cons, hf, hBm, hAm, pickLatest, hlt, Nat.sub_self]

/-- C4: `get_api_response` serves the most-recently-modified matching record:
any served value is the data of a matching record of maximal mtime that is
within its effective max age (the explicit `max_age`, or else that record's
own stored `ttl`, not a global default); the result is absent when no record
matches or when the chosen record's age strictly exceeds the effective max
age; and storing `A` then `B` for the same ticker/API and reading back
returns `B`. -/
theorem C4_most_recent_wins :
    (∀ (st : TempState) (now : Nat) (tick api : String) (m : Option Nat) (v : Val),
        getApiResponse st now tick api m = some v →
        ∃ r, r ∈ st.apiResponses.filter (matchesApi tick api) ∧
          (∀ x ∈ st.apiResponses.filter (matchesApi tick api), x.mtime ≤ r.mtime) ∧
          v = r.data ∧
          now - r.mtime ≤ (match m with | none => r.ttl | some a => a))
    ∧ (∀ (st : TempState) (now : Nat) (tick api : String) (m : Option Nat),
        st.apiResponses.filter (matchesApi tick api) = [] →
        getApiResponse st now tick api m = none)
    ∧ (∀ (st : TempState) (now : Nat) (tick api : String) (m : Option Nat) (r : TempRecord),
        pickLatest TempRecord.mtime (st.apiResponses.filter (matchesApi tick api)) = some r →
        now - r.mtime > (match m with | none => r.ttl | some a => a) →
        getApiResponse st now tick api m = none)
    ∧ (∀ (n₁ n₂ : Nat) (tick api : String) (A B : Val) (t₁ t₂ : Option Nat),
        n₁ ≤ n₂ →
        getApiResponse
          (storeApiResponse (storeApiResponse ⟨[], [], [], 600⟩ n₁ tick api A t₁).1
            n₂ tick api B t₂).1 n₂ tick api none = some B) := by
  refine ⟨?_, ?_, ?_, ?_⟩
  · intro st now tick api m v h
    simp only [getApiResponse] at h
    rcases e : pickLatest TempRecord.mtime (st.apiResponses.filter (matchesApi tick api))
      with _ | r <;> rw [e] at h
    · cases h
    · rcases m with _ | a <;> dsimp only at h ⊢
      · by_cases hc : now - r.mtime > r.ttl
        · rw [if_pos hc] at h; cases h
        · rw [if_neg hc] at h
          exact ⟨r, pickLatest_mem e, pickLatest_maximal e, (Option.some.inj h).symm,
            Nat.le_of_not_lt hc⟩
      · by_cases hc : now - r.mtime > a
        · rw [if_pos hc] at h; cases h
        · rw [if_neg hc] at h
          exact ⟨r, pickLatest_mem e, pickLatest_maximal e, (Option.some.inj h).symm,
            Nat.le_of_not_lt hc⟩
  · intro st now tick api m h
    simp [getApiResponse, h, pickLatest]
  · intro st now tick api m r e hc
    simp [getApiResponse, e, hc]
  · intro n₁ n₂ tick api A B t₁ t₂ hle
    exact getApi_two_records tick api n₂ _ _ _ _ _ rfl rfl rfl rfl hle rfl

/-- Witness for C4 at a concrete input: store 1 then 2 and read back 2. -/
theorem C4_witness :
    getApiResponse
      (storeApiResponse (storeApiResponse ⟨[], [], [], 600⟩ 0 "AAPL" "av" (.vint 1) none).1
        5 "AAPL" "av" (.vint 2) none).1 5 "AAPL" "av" none = some (.vint 2) :=
  C4_most_recent_wins.2.2.2 0 5 "AAPL" "av" (.vint 1) (.vint 2) none none (by decide)

/-- C2: behaviour of `get_or_fetch_data` at the claim's scenario.  With a
single temp record that is stale (age 1000, stored ttl 600) and a raising
`fetch_fn`, the call returns the structured error dict — not the stale
payload — because the temp-check step already filtered the stale record out
(`temp_data` is `None` when the fetch fails); with the same record still
fresh (age 100) the payload is returned.  The code's own comment and log
line ("Return cached data if available (even if expired)" / "Returning
expired temporary data") promise the stale payload. -/
theorem C2_stale_fallback_behaviour :
    ((getOrFetchData idDigest
        ⟨⟨[], 600⟩, ⟨[⟨"AAPL", "av", 0, 600, .vdict [("p", .vint 1)]⟩], [], [], 600⟩,
          false, none⟩
        1000 "AAPL" "av" (.error "boom") false none).2 =
      .vdict [("error", .vstr "Failed to fetch data: boom"), ("ticker", .vstr "AAPL")])
    ∧ ((getOrFetchData idDigest
        ⟨⟨[], 600⟩, ⟨[⟨"AAPL", "av", 0, 600, .vdict [("p", .vint 1)]⟩], [], [], 600⟩,
          false, none⟩
        100 "AAPL" "av" (.error "boom") false none).2 = .vdict [("p", .vint 1)]) :=
  ⟨rfl, rfl⟩

/-- C9: the shape of `get_or_fetch_data`'s result depends on the serving
tier.  Starting from empty storage, a first call returns the freshly fetched
raw data; an immediate second call hits the cache and returns the stored
entry wrapper (the data nested under `response`), which is a different value
from the raw data. -/
theorem C9_shape_depends_on_tier :
    ((getOrFetchData idDigest ⟨⟨[], 600⟩, ⟨[], [], [], 600⟩, false, none⟩ 0 "AAPL" "av"
        (.ok (.vdict [("price", .vint 150)])) false none).2 =
      .vdict [("price", .vint 150)])
    ∧ ((getOrFetchData idDigest
        (getOrFetchData idDigest ⟨⟨[], 600⟩, ⟨[], [], [], 600⟩, false, none⟩ 0 "AAPL" "av"
          (.ok (.vdict [("price", .vint 150)])) false none).1
        10 "AAPL" "av" (.ok (.vdict [("price", .vint 150)])) false none).2 =
      cacheEntryVal 0 "api"
        (generateCacheKey idDigest (apiFingerprint "av" [("ticker", .vstr "AAPL")]))
        (.vdict [("price", .vint 150)]))
    ∧ cacheEntryVal 0 "api"
        (generateCacheKey idDigest (apiFingerprint "av" [("ticker", .vstr "AAPL")]))
        (.vdict [("price", .vint 150)]) ≠ .vdict [("price", .vint 150)] :=
  ⟨rfl, rfl,
    valNe_of_beq_false
      (show valBeq
        (cacheEntryVal 0 "api"
          (generateCacheKey idDigest (apiFingerprint "av" [("ticker", .vstr "AAPL")]))
          (.vdict [("price", .vint 150)]))
        (.vdict [("price", .vint 150)]) = false from rfl)⟩

theorem applyOp_flag_split (md5 : String → String) (st : SMState) (op : SMOp) :
    (applyOp md5 st op).enableVector = st.enableVector ∨
      ∃ cr, op = SMOp.initOp false cr ∧ (applyOp md5 st op).enableVector = false := by
  cases op with
  | initOp probeOk createRaises =>
    simp only [applyOp, initStorageManager]
    by_cases hv : st.enableVector && st.vectorDb.isSome
    · cases probeOk with
      | false => right; exact ⟨createRaises, rfl, by simp [hv]⟩
      | true =>
        left
        cases createRaises <;> simp [hv]
    · left; simp [hv]
  | getOrFetch now ticker apiName fetchResult forceRefresh cacheTtl =>
    left; rw [applyOp, getOrFetchData_flag]
  | getOrGenerate now ticker genResult forceRefresh cacheTtl =>
    left; rw [applyOp, getOrGenerateReport_flag]
  | _ => left; rfl

/-- C7: the `enable_vector_storage` flag never returns to `true` once
`false`; along any run of `StorageManager` operations it flips from `true`
to `false` at most once, and the only operation that flips it is
`initialize` with a failed connectivity probe; on a successful probe
`initialize` ensures the collection exists; and an internal error during
initialization (`create_collection` raising) is converted into a `False`
return value — `initialize` is a total function of the probe outcomes, it
never propagates the exception. -/
theorem C7_vector_flag_latch :
    (∀ (md5 : String → String) (st : SMState) (op : SMOp),
        st.enableVector = false → (applyOp md5 st op).enableVector = false)
    ∧ (∀ (md5 : String → String) (st : SMState) (op : SMOp),
        st.enableVector = true → (applyOp md5 st op).enableVector = false →
        ∃ cr, op = SMOp.initOp false cr)
    ∧ (∀ (md5 : String → String) (st : SMState) (ops : List SMOp),
        countFlips md5 st ops ≤ 1)
    ∧ (∀ st : SMState, st.enableVector = true → st.vectorDb.isSome = true →
        (initStorageManager st true false).1.vectorDb = some true)
    ∧ (∀ st : SMState, st.enableVector = true → st.vectorDb.isSome = true →
        initStorageManager st true true = (st, false)) := by
  refine ⟨applyOp_flag_of_false, ?_, ?_, ?_, ?_⟩
  · intro md5 st op h1 h2
    rcases applyOp_flag_split md5 st op with h | ⟨cr, hop, _⟩
    · rw [h1] at h; rw [h] at h2; cases h2
    · exact ⟨cr, hop⟩
  · intro md5 st ops
    induction ops generalizing st with
    | nil => simp [countFlips]
    | cons op ops ih =>
      simp only [countFlips]
      cases hflag : st.enableVector with
      | false =>
        rw [countFlips_of_false md5 ops _ (applyOp_flag_of_false md5 st op hflag)]
        simp
      | true =>
        cases hflag' : (applyOp md5 st op).enableVector with
        | false =>
          rw [countFlips_of_false md5 ops _ hflag']
          simp
        | true =>
          have h := ih (applyOp md5 st op)
          simpa [hflag'] using h
  · intro st h1 h2
    simp [initStorageManager, h1, h2]
  · intro st h1 h2
    simp [initStorageManager, h1, h2]

/-- Witness for C7 at a concrete input: a successful probe on an enabled
manager ensures the collection exists. -/
theorem C7_witness :
    (initStorageManager ⟨⟨[], 600⟩, ⟨[], [], [], 600⟩, true, some false⟩ true false).1.vectorDb =
      some true :=
  C7_vector_flag_latch.2.2.2.1 ⟨⟨[], 600⟩, ⟨[], [], [], 600⟩, true, some false⟩ rfl rfl

end FIRS
